import Mathlib

/-!
Verification development for the `whisper.linux` voice-dictation daemon
(`examples/whisper.linux/app` of this repository).  The Python modules
`audio.py`, `transcriber.py`, `commands.py` and `app.py` are shallowly
embedded below: pure functions become Lean functions on `List Char` /
`List Nat`, the coordinator state machine becomes an explicit step
function on a record of its fields, and fallible code returns `Option` /
`Except`.  Machine floats of the source (`duration_s`, `max_speech_s`,
difflib ratios, `time.time()`) are modelled by exact rationals; for every
comparison the source performs the involved fractions have denominators
small enough that double rounding cannot cross the compared threshold, so
the exact model decides each comparison identically to the float code.
-/

namespace WhisperLinux

/-- Whitespace characters recognised by Python's `str.split()` / `str.strip()`
(ASCII part; the texts handled by the daemon contain no exotic Unicode
whitespace). -/
def pyIsWs (c : Char) : Bool :=
  c = ' ' || c = '\t' || c = '\n' || c = '\r' || c = Char.ofNat 11 || c = Char.ofNat 12

/-- Python `str.strip()` on a list of characters: drop leading and trailing
whitespace. -/
def pyStrip (l : List Char) : List Char :=
  ((l.dropWhile pyIsWs).reverse.dropWhile pyIsWs).reverse

/-- Python `str.strip(chars)`: drop leading and trailing characters belonging
to `cs`. -/
def pyStripChars (cs : List Char) (l : List Char) : List Char :=
  ((l.dropWhile (· ∈ cs)).reverse.dropWhile (· ∈ cs)).reverse

/-- Python `str.split()` with no separator: split on runs of whitespace,
discarding empty pieces.  `acc` is the current (reversed) in-progress word. -/
def pySplitAux : List Char → List Char → List (List Char)
  | [], acc => if acc.isEmpty then [] else [acc.reverse]
  | c :: cs, acc =>
      if pyIsWs c then
        if acc.isEmpty then pySplitAux cs [] else acc.reverse :: pySplitAux cs []
      else
        pySplitAux cs (c :: acc)

/-- `text.split()` of Python, producing the whitespace-separated tokens. -/
def pySplit (l : List Char) : List (List Char) := pySplitAux l []

/-- Tokens of a `String`, as strings. -/
def pyWords (s : String) : List String := (pySplit s.data).map List.asString

/-- Lowercasing as Python `str.lower()` does on the alphabets this program
uses: ASCII letters and the Russian Cyrillic block (А-Я → а-я, Ё → ё). -/
def pyLower (c : Char) : Char :=
  if 'A' ≤ c ∧ c ≤ 'Z' then Char.ofNat (c.toNat + 32)
  else if 0x410 ≤ c.toNat ∧ c.toNat ≤ 0x42F then Char.ofNat (c.toNat + 0x20)
  else if c.toNat = 0x401 then Char.ofNat 0x451
  else c

def pyLowerStr (s : String) : String := (s.data.map pyLower).asString

/-- The punctuation set `.,!?;:-"'()[]` stripped from tokens by
`commands.py` and `transcriber.py` (`word.strip(".,!?;:-\"'()[]")`). -/
def punctChars : List Char :=
  ['.', ',', '!', '?', ';', ':', '-', '"', Char.ofNat 39, '(', ')', '[', ']']

-- ---------------------------------------------------------------------------
-- transcriber.py: hallucination filter, layer 2 (speech-rate plausibility)
-- ---------------------------------------------------------------------------

/-- `len(words)` for `words = text.split()` in `_is_hallucination`. -/
def wordCount (text : String) : Nat := (pySplit text.data).length

/-- `len(text.replace(" ", ""))` in `_is_hallucination`: the number of
characters other than the space character. -/
def charCountNoSpaces (text : String) : Nat :=
  (text.data.filter (fun c => c ≠ ' ')).length

/-- `_MAX_WORDS_PER_SEC` of transcriber.py. -/
def maxWordsPerSec : ℚ := 5

/-- `_MAX_CHARS_PER_SEC` of transcriber.py. -/
def maxCharsPerSec : ℚ := 25

/-- Layer 2 of `_is_hallucination` (transcriber.py lines 61-77): when the
audio duration is known (`duration_s > 0`), reject text whose word count
exceeds `max(2, duration_s * 5)` or whose space-free character count exceeds
`max(10, duration_s * 25)`. -/
def speechRateReject (text : String) (durationS : ℚ) : Bool :=
  if 0 < durationS then
    decide ((wordCount text : ℚ) > max 2 (durationS * maxWordsPerSec)) ||
      decide ((charCountNoSpaces text : ℚ) > max 10 (durationS * maxCharsPerSec))
  else
    false

-- ---------------------------------------------------------------------------
-- difflib.SequenceMatcher ratio (used by commands.py `_match_command`)
-- ---------------------------------------------------------------------------

/-- Length of the longest equal run at the heads of two lists. -/
def prefLen : List Char → List Char → Nat
  | a :: as, b :: bs => if a = b then prefLen as bs + 1 else 0
  | _, _ => 0

/-- Best matching block against every tail of `b` for a fixed tail `sa` of
`a`; returns `(k, j)` maximising the block length `k`, preferring the
smallest offset `j` on ties (difflib's tie-break). -/
def flmOverB (sa : List Char) : List Char → Nat → Nat × Nat
  | [], _ => (0, 0)
  | b :: bs, j =>
      let k := prefLen sa (b :: bs)
      let r := flmOverB sa bs (j + 1)
      if r.1 > k then r else (k, j)

/-- Longest matching block of two character lists, as difflib's
`find_longest_match` computes it without junk: the triple `(k, i, j)` with
maximal length `k`, smallest start `i` in `a` among those, then smallest
start `j` in `b`. -/
def flmOverA : List Char → List Char → Nat → Nat × Nat × Nat
  | [], _, _ => (0, 0, 0)
  | a :: as, b, i =>
      let kj := flmOverB (a :: as) b 0
      let r := flmOverA as b (i + 1)
      if r.1 > kj.1 then r else (kj.1, i, kj.2)

/-- Total size of difflib's matching blocks: recursively take the longest
matching block and recurse on the parts to its left and right.  `fuel`
bounds the recursion depth; every level removes at least one character,
so `a.length + b.length + 1` is always enough. -/
def matchTotal : Nat → List Char → List Char → Nat
  | 0, _, _ => 0
  | fuel + 1, a, b =>
      let r := flmOverA a b 0
      let k := r.1
      let i := r.2.1
      let j := r.2.2
      if k = 0 then 0
      else
        matchTotal fuel (a.take i) (b.take j) + k +
          matchTotal fuel (a.drop (i + k)) (b.drop (j + k))

/-- `SequenceMatcher(None, a, b).ratio()` as an exact fraction
`(numerator, denominator)`: `2·M / (len(a)+len(b))`, and `1.0` when both
sequences are empty (difflib's `_calculate_ratio`). -/
def simRatio (a b : List Char) : Nat × Nat :=
  let L := a.length + b.length
  if L = 0 then (1, 1) else (2 * matchTotal (L + 1) a b, L)

-- ---------------------------------------------------------------------------
-- commands.py: VoiceCommands
-- ---------------------------------------------------------------------------

/-- `DEFAULT_VOICE_COMMANDS` of config.py, in insertion order. -/
def defaultVoiceCommands : List (String × String) :=
  [("enter", "key:Return"), ("энтер", "key:Return"), ("ввод", "key:Return"),
   ("backspace", "backspace"), ("бэкспейс", "backspace"),
   ("бекспейс", "backspace"), ("назад", "backspace"),
   ("tab", "key:Tab"), ("таб", "key:Tab"), ("табуляция", "key:Tab"),
   ("escape", "key:Escape"), ("эскейп", "key:Escape"), ("стоп", "key:Escape")]

/-- `VoiceCommands._match_command`: empty words match nothing; exact
dictionary hit first; otherwise the best-scoring fuzzy hit with ratio
≥ 0.75 (strict improvement over the running best, so the earliest entry
wins ties, like the Python loop over the insertion-ordered dict). -/
def matchCommand (cmds : List (String × String)) (word : String) : Option String :=
  if word = "" then none
  else
    match cmds.find? (fun p => p.1 = word) with
    | some p => some p.2
    | none =>
        let best := cmds.foldl
          (fun (acc : (Nat × Nat) × Option String) p =>
            let r := simRatio p.1.data word.data
            if 4 * r.1 ≥ 3 * r.2 ∧ r.1 * acc.1.2 > acc.1.1 * r.2 then (r, some p.2)
            else acc)
          ((0, 1), none)
        best.2

/-- Observable calls made by `VoiceCommands.process` and by the coordinator:
text injections, synthetic key presses, chimes and tray notifications. -/
inductive Effect where
  | inject (text : String)
  | sendKey (key : String)
  | startChime
  | endChime
  | notify (msg : String)
  deriving DecidableEq, Repr

/-- `word.strip(".,!?;:-\"'()[]").lower()` applied to each scanned token. -/
def cleanTok (w : String) : String :=
  pyLowerStr (pyStripChars punctChars w.data).asString

/-- The token scan of `VoiceCommands.process` (commands.py lines 37-62):
`buf` is the pending non-command token buffer, flushed (space-joined)
before each key press and at the end; `backspace` pops the buffer or sends
`ctrl+BackSpace` when it is empty. -/
def processLoop (cmds : List (String × String)) :
    List String → List String → List Effect
  | [], buf => if buf.isEmpty then [] else [Effect.inject (String.intercalate " " buf)]
  | w :: ws, buf =>
      match matchCommand cmds (cleanTok w) with
      | some act =>
          if act = "backspace" then
            if buf.isEmpty then
              Effect.sendKey "ctrl+BackSpace" :: processLoop cmds ws buf
            else
              processLoop cmds ws buf.dropLast
          else
            (if buf.isEmpty then [] else [Effect.inject (String.intercalate " " buf)]) ++
              Effect.sendKey (act.drop 4) :: processLoop cmds ws []
      | none => processLoop cmds ws (buf ++ [w])

/-- `VoiceCommands.process(text, inject_fn, send_key_fn)`, as the ordered
list of calls it makes. -/
def processEvents (cmds : List (String × String)) (text : String) : List Effect :=
  let words := pyWords text
  if words.isEmpty then [] else processLoop cmds words []

-- ---------------------------------------------------------------------------
-- transcriber.py: hallucination filter, layer 1 (_HALLUCINATION_RE)
-- ---------------------------------------------------------------------------

/-- Character classes occurring in the hallucination patterns: `\s`, `\w`
(ASCII word characters plus the Cyrillic block, the alphabets these
patterns meet), `\d`, and `.` (anything but a newline). -/
inductive Cls where
  | ws
  | wordc
  | digit
  | dotc
  deriving DecidableEq, Repr

def inCls : Cls → Char → Bool
  | Cls.ws, c => pyIsWs c
  | Cls.wordc, c =>
      c.isAlpha || c.isDigit || c = '_' || decide (0x400 ≤ c.toNat ∧ c.toNat ≤ 0x4FF)
  | Cls.digit, c => c.isDigit
  | Cls.dotc, c => c ≠ '\n'

/-- Regular-expression abstract syntax sufficient for the 20 patterns of
`_HALLUCINATION_PATTERNS`. -/
inductive RE where
  | emp
  | chr (c : Char)
  | cls (k : Cls)
  | cat (r s : RE)
  | alt (r s : RE)
  | star (r : RE)
  deriving DecidableEq, Repr

/-- Backtracking matcher: all remainders after matching `r` against the
front of `cs`.  `fuel` bounds recursion depth; `reFuel` below always
suffices because every `star` iteration consumes at least one character. -/
def reMatches : Nat → RE → List Char → List (List Char)
  | 0, _, _ => []
  | _ + 1, RE.emp, cs => [cs]
  | _ + 1, RE.chr _, [] => []
  | _ + 1, RE.chr c, x :: xs => if x = c then [xs] else []
  | _ + 1, RE.cls _, [] => []
  | _ + 1, RE.cls k, x :: xs => if inCls k x then [xs] else []
  | f + 1, RE.cat r s, cs => (reMatches f r cs).flatMap (fun rest => reMatches f s rest)
  | f + 1, RE.alt r s, cs => reMatches f r cs ++ reMatches f s cs
  | f + 1, RE.star r, cs =>
      cs :: (reMatches f r cs).flatMap (fun rest =>
        if rest.length < cs.length then reMatches f (RE.star r) rest else [])

def reSize : RE → Nat
  | RE.emp => 1
  | RE.chr _ => 1
  | RE.cls _ => 1
  | RE.cat r s => reSize r + reSize s + 1
  | RE.alt r s => reSize r + reSize s + 1
  | RE.star r => reSize r + 2

def reFuel (r : RE) (n : Nat) : Nat := (reSize r + 2) * (n + 2)

/-- All tails of a list, longest first (the candidate starting points of
`re.search`). -/
def listTails : List Char → List (List Char)
  | [] => [[]]
  | c :: cs => (c :: cs) :: listTails cs

/-- `re.search(pattern, text)` as a Boolean: a match starting anywhere. -/
def reSearch (r : RE) (l : List Char) : Bool :=
  (listTails l).any (fun s => !(reMatches (reFuel r l.length) r s).isEmpty)

/-- A literal (already lowercase) string pattern. -/
def rstr (s : String) : RE := s.data.foldr (fun c r => RE.cat (RE.chr c) r) RE.emp

/-- A sequence of pattern pieces. -/
def rseq (l : List RE) : RE := l.foldr RE.cat RE.emp

/-- `\s+`. -/
def rws : RE := RE.cat (RE.cls Cls.ws) (RE.star (RE.cls Cls.ws))

/-- `x?`. -/
def ropt (r : RE) : RE := RE.alt r RE.emp

/-- `_HALLUCINATION_PATTERNS` of transcriber.py, in order.  The literals are
lowercase; `IGNORECASE` matching is realised by lowercasing the text before
searching. -/
def hallucinationPatterns : List RE :=
  [rstr "субтитр",
   rseq [rstr "редактор", rws, rstr "субтитр"],
   rseq [rstr "перевод", RE.star (RE.cls Cls.wordc), rws, rstr "субтитр"],
   rstr "подредактир",
   rseq [rstr "продолжение", rws, rstr "следует"],
   rseq [rstr "спасибо", rws, rstr "за", rws,
         RE.alt (rstr "просмотр") (RE.alt (rstr "подписк") (rstr "внимание"))],
   rstr "подписывайтесь",
   rseq [rstr "не", rws, rstr "забудьте", rws, rstr "подписаться"],
   rseq [rstr "ставьте", rws, rstr "лайк"],
   rseq [rstr "с", rws, rstr "вами", rws, rstr "был",
         ropt (RE.alt (RE.chr 'а') (RE.alt (RE.chr 'и') (RE.chr 'о'))), RE.cls Cls.ws],
   rseq [RE.chr 'а', RE.cat (RE.chr 'п') (RE.star (RE.chr 'п')), rstr "ортизатор"],
   rseq [rstr "добро", rws, rstr "пожаловать"],
   rseq [rstr "до", rws, rstr "новых", rws, rstr "встреч"],
   rseq [rstr "до", rws, rstr "свидания", RE.star (RE.cls Cls.dotc), rstr "друзья"],
   rseq [rstr "subtitle", ropt (RE.chr 's'), rws,
         RE.alt (rstr "by") (RE.alt (rstr "made") (RE.alt (rstr "edited") (rstr "created")))],
   rseq [rstr "thank", ropt (RE.chr 's'), rws, rstr "for", rws, rstr "watching"],
   rseq [rstr "subscribe", rws, RE.alt (rstr "to") (rstr "and")],
   rseq [rstr "please", rws, RE.alt (rstr "like") (rstr "subscribe")],
   rseq [rstr "don", ropt (RE.chr (Char.ofNat 39)), rstr "t", rws, rstr "forget",
         rws, rstr "to", rws, rstr "subscribe"],
   rseq [rstr "copyright", rws, RE.cls Cls.digit, RE.cls Cls.digit,
         RE.cls Cls.digit, RE.cls Cls.digit]]

/-- `_HALLUCINATION_RE.search(text)` as a Boolean (case-insensitive union of
the 20 patterns). -/
def patternReject (text : String) : Bool :=
  hallucinationPatterns.any (fun p => reSearch p (text.data.map pyLower))

/-- `_is_hallucination(text, duration_s)`: layer 1 (known patterns), then
layer 2 (speech-rate plausibility, only when the duration is known). -/
def isHallucination (text : String) (durationS : ℚ) : Bool :=
  patternReject text || speechRateReject text durationS

-- ---------------------------------------------------------------------------
-- transcriber.py: Transcriber.transcribe (success path post-processing)
-- ---------------------------------------------------------------------------

/-- Python `str.replace(pat, "")`: one left-to-right pass removing
non-overlapping occurrences.  `fuel` starts at the input length; each step
consumes at least one character, so it never runs out. -/
def replaceAllAux (pat : List Char) : Nat → List Char → List Char
  | 0, l => l
  | fuel + 1, l =>
      match l with
      | [] => []
      | c :: cs =>
          if pat.isPrefixOf l then replaceAllAux pat fuel (l.drop pat.length)
          else c :: replaceAllAux pat fuel cs

def pyReplaceEmpty (pat : List Char) (l : List Char) : List Char :=
  replaceAllAux pat l.length l

def blankAudioSentinel : List Char := "[BLANK_AUDIO]".data

/-- `text = result.stdout.strip(); text = text.replace("[BLANK_AUDIO]", "").strip()`
of `Transcriber.transcribe`. -/
def stripSentinelTrim (stdout : String) : String :=
  (pyStrip (pyReplaceEmpty blankAudioSentinel (pyStrip stdout.data))).asString

/-- The result handling of `Transcriber.transcribe` (transcriber.py lines
172-182) as a function of the subprocess exit code, stdout, stderr and the
known duration: non-zero exit raises; otherwise the stripped text is
returned, blanked when the non-empty stripped text is classified as a
hallucination. -/
def transcribeRun (returncode : ℤ) (stdout stderr : String) (durationS : ℚ) :
    Except String String :=
  if returncode ≠ 0 then
    Except.error (("whisper-cli failed: ".data ++ stderr.data.take 200).asString)
  else
    let text := stripSentinelTrim stdout
    if text ≠ "" ∧ isHallucination text durationS = true then Except.ok ""
    else Except.ok text

-- ---------------------------------------------------------------------------
-- audio.py: SimpleVAD
-- ---------------------------------------------------------------------------

/-- The SimpleVAD configuration slice of `Config`: `vad_threshold` (int),
`min_speech_ms` (int), `max_speech_s` (float, exact rational here). -/
structure VadConfig where
  threshold : ℤ
  minSpeechMs : ℤ
  maxSpeechS : ℚ
  deriving DecidableEq, Repr

/-- `_frame_bytes = 16000 * 2 * 30 // 1000`. -/
def frameBytes : Nat := 960

/-- `_silence_frames = 300 // 30`. -/
def silenceFramesLimit : Nat := 10

/-- `int(self._max_speech_s * 32000)`: exact product then truncation toward
zero (clamped at 0 on the `Nat` side; a negative bound makes the source
force-emit every frame, and so does a bound of 0 here). -/
def maxSpeechBytes (cfg : VadConfig) : Nat :=
  ((cfg.maxSpeechS.num * 32000).tdiv (cfg.maxSpeechS.den : ℤ)).toNat

/-- `array("h").frombytes`: decode little-endian signed 16-bit samples,
ignoring a trailing odd byte. -/
def decodeS16 : List Nat → List ℤ
  | lo :: hi :: rest =>
      let v := lo + 256 * hi
      (if v < 32768 then (v : ℤ) else (v : ℤ) - 65536) :: decodeS16 rest
  | _ => []

/-- `SimpleVAD._rms(frame) >= threshold`, decided exactly: the RMS is
nonnegative, and for a positive threshold `sqrt(sum/n) ≥ t ↔ t²·n ≤ sum`.
An empty sample list has RMS `0.0` in the source. -/
def frameIsSpeech (threshold : ℤ) (frame : List Nat) : Bool :=
  let samples := decodeS16 frame
  if samples.length = 0 then decide (threshold ≤ 0)
  else
    decide (threshold ≤ 0) ||
      decide (threshold ^ 2 * (samples.length : ℤ) ≤ (samples.map (fun s => s * s)).sum)

/-- The mutable fields of SimpleVAD other than the pending byte buffer:
`_speech_buffer`, `_in_speech`, `_silent_count`. -/
structure VadCore where
  speechBuffer : List Nat
  inSpeech : Bool
  silentCount : Nat
  deriving DecidableEq, Repr

/-- Full SimpleVAD state: `_buffer` (pending bytes short of a frame) plus
the core fields. -/
structure VadState where
  buffer : List Nat
  core : VadCore
  deriving DecidableEq, Repr

/-- The state after `reset()` and at construction. -/
def vadInit : VadState := ⟨[], ⟨[], false, 0⟩⟩

/-- `SimpleVAD._emit_speech`: reset the core unconditionally; deliver the
segment to `on_speech_end` only when its floor duration in ms reaches
`min_speech_ms`. -/
def emitSpeech (cfg : VadConfig) (c : VadCore) : VadCore × Option (List Nat) :=
  let pcm := c.speechBuffer
  let durationMs : Nat := pcm.length * 1000 / 32000
  if cfg.minSpeechMs ≤ (durationMs : ℤ) then (⟨[], false, 0⟩, some pcm)
  else (⟨[], false, 0⟩, none)

/-- The threshold/append/silence part of one `SimpleVAD.feed` loop
iteration (before the max-length check): speech frames append and reset the
silence counter (invoking `on_speech_start` on the silence-to-speech edge,
an unobserved callback here); silent frames while in speech append,
count, and emit after `_silence_frames` of trailing silence. -/
def processFrameA (cfg : VadConfig) (frame : List Nat) (c : VadCore) :
    VadCore × List (List Nat) :=
  if frameIsSpeech cfg.threshold frame then
    let c1 := if c.inSpeech then c else { c with inSpeech := true, silentCount := 0 }
    ({ c1 with speechBuffer := c1.speechBuffer ++ frame, silentCount := 0 }, [])
  else if c.inSpeech then
    let c2 := { c with speechBuffer := c.speechBuffer ++ frame,
                       silentCount := c.silentCount + 1 }
    if silenceFramesLimit ≤ c2.silentCount then
      ((emitSpeech cfg c2).1, (emitSpeech cfg c2).2.toList)
    else (c2, [])
  else (c, [])

/-- One full iteration of the `while` loop in `SimpleVAD.feed` for a
complete frame: the classification step, then the max-length force
emission (`len(speech_buffer) >= max_bytes`). -/
def processFrame (cfg : VadConfig) (frame : List Nat) (c : VadCore) :
    VadCore × List (List Nat) :=
  let step1 := processFrameA cfg frame c
  if step1.1.inSpeech && decide (maxSpeechBytes cfg ≤ step1.1.speechBuffer.length) then
    ((emitSpeech cfg step1.1).1, step1.2 ++ (emitSpeech cfg step1.1).2.toList)
  else step1

/-- The `while len(buffer) >= frame_bytes` loop of `feed`.  The loop
condition is independent of the core state, so the fuel (one unit per
consumed byte suffices) only mirrors termination, not behaviour. -/
def drainFrames (cfg : VadConfig) : Nat → List Nat → VadCore →
    List Nat × VadCore × List (List Nat)
  | 0, buf, c => (buf, c, [])
  | fuel + 1, buf, c =>
      if frameBytes ≤ buf.length then
        let pr := processFrame cfg (buf.take frameBytes) c
        let r := drainFrames cfg fuel (buf.drop frameBytes) pr.1
        (r.1, r.2.1, pr.2 ++ r.2.2)
      else (buf, c, [])

/-- `SimpleVAD.feed(chunk)`: extend the pending buffer, process whole
frames; returns the new state and the segments delivered to
`on_speech_end`, in order. -/
def vadFeed (cfg : VadConfig) (s : VadState) (chunk : List Nat) :
    VadState × List (List Nat) :=
  let buf := s.buffer ++ chunk
  let r := drainFrames cfg buf.length buf s.core
  (⟨r.1, r.2.1⟩, r.2.2)

/-- Feed a sequence of chunks from the initial state, collecting every
emitted segment. -/
def runVad (cfg : VadConfig) (chunks : List (List Nat)) :
    VadState × List (List Nat) :=
  chunks.foldl
    (fun acc chunk =>
      let r := vadFeed cfg acc.1 chunk
      (r.1, acc.2 ++ r.2))
    (vadInit, [])

-- ---------------------------------------------------------------------------
-- audio.py: _write_wav
-- ---------------------------------------------------------------------------

/-- `struct.pack("<I", x)`: four little-endian bytes; fails (raises) when
the value does not fit. -/
def pack32 (x : Nat) : Option (List Nat) :=
  if x < 2 ^ 32 then some [x % 256, x / 256 % 256, x / 2 ^ 16 % 256, x / 2 ^ 24 % 256]
  else none

/-- `struct.pack("<H", x)`: two little-endian bytes. -/
def pack16 (x : Nat) : Option (List Nat) :=
  if x < 2 ^ 16 then some [x % 256, x / 256 % 256] else none

/-- `_write_wav(path, pcm_data, sample_rate, channels, bits)` (audio.py
lines 105-124): the byte content of the produced file — RIFF/fmt/data
header followed by the raw PCM. -/
def writeWavBytes (pcm : List Nat) (sampleRate : Nat := 16000)
    (channels : Nat := 1) (bits : Nat := 16) : Option (List Nat) := do
  let dataSize := pcm.length
  let byteRate := sampleRate * channels * bits / 8
  let blockAlign := channels * bits / 8
  let riffSize ← pack32 (36 + dataSize)
  let fmtSize ← pack32 16
  let audioFmt ← pack16 1
  let chans ← pack16 channels
  let rate ← pack32 sampleRate
  let brate ← pack32 byteRate
  let balign ← pack16 blockAlign
  let bitsF ← pack16 bits
  let dsize ← pack32 dataSize
  pure ([0x52, 0x49, 0x46, 0x46] ++ riffSize ++ [0x57, 0x41, 0x56, 0x45] ++
    [0x66, 0x6d, 0x74, 0x20] ++ fmtSize ++ audioFmt ++ chans ++ rate ++ brate ++
    balign ++ bitsF ++ [0x64, 0x61, 0x74, 0x61] ++ dsize ++ pcm)

-- ---------------------------------------------------------------------------
-- app.py: the coordinator state machine
-- ---------------------------------------------------------------------------

/-- `AppState` of config.py. -/
inductive AppState where
  | idle
  | recording
  | processing
  | listening
  | dictating
  deriving DecidableEq, Repr

inductive InputMode where
  | hotkey
  | listen
  deriving DecidableEq, Repr

inductive OutputMode where
  | batch
  | stream
  deriving DecidableEq, Repr

/-- The slice of `Config` the coordinator reads (fixed for a run). -/
structure AppConfig where
  inputMode : InputMode
  outputMode : OutputMode
  voiceCommands : Bool
  commandsMap : List (String × String)
  endSignal : Bool
  notification : Bool
  vadCfg : VadConfig

/-- The `WakeWordDetector` interface the coordinator calls
(`contains_wake_word` / `strip_wake_word`); the coordinator's behaviour
depends only on these two functions of the segment text. -/
structure Detector where
  contains : String → Bool
  strip : String → String

/-- The coordinator-owned fields of `WhisperLinuxApp`: `state`,
`_accumulated_texts`, whether `_silence_timer` is non-null, whether
`_wake_detector` is non-null, `_vad`, `_mute_until`, and whether a
`_transcribe_and_inject` thread spawned by `_stop_recording` is still in
flight (the token that lets the model fire its completion exactly when the
real thread could). -/
structure Machine where
  state : AppState
  accumulated : List String
  silenceTimer : Bool
  wakePresent : Bool
  vad : Option VadState
  muteUntil : ℚ
  pendingTranscription : Bool

/-- The application state right after `__init__`. -/
def machineInit : Machine :=
  { state := AppState.idle, accumulated := [], silenceTimer := false,
    wakePresent := false, vad := none, muteUntil := 0,
    pendingTranscription := false }

/-- `text[:80] + ("..." if len(text) > 80 else "")`. -/
def textPreview (t : String) : String :=
  if 80 < t.length then (t.data.take 80).asString ++ "..." else t

/-- `WhisperLinuxApp._inject_text`: route through `VoiceCommands.process`
when enabled, else a single `injector.inject` call. -/
def injectText (cfg : AppConfig) (text : String) : List Effect :=
  if cfg.voiceCommands then processEvents cfg.commandsMap text
  else [Effect.inject text]

/-- `_flush_accumulated_text`: when the buffer is non-empty, restore focus
(not an effect we track), inject the space-joined buffer, clear it. -/
def flushAccumulated (cfg : AppConfig) (m : Machine) : Machine × List Effect :=
  if m.accumulated.isEmpty then (m, [])
  else ({ m with accumulated := [] },
        injectText cfg (String.intercalate " " m.accumulated))

/-- `_play_start_signal`: gated on `config.end_signal`; sets the mute
deadline 0.6 s ahead, resets the VAD if present, plays the chime. -/
def playStartSignal (cfg : AppConfig) (now : ℚ) (m : Machine) :
    Machine × List Effect :=
  if cfg.endSignal then
    ({ m with muteUntil := now + 3 / 5, vad := m.vad.map (fun _ => vadInit) },
     [Effect.startChime])
  else (m, [])

/-- `_play_end_signal`: same shape as the start signal. -/
def playEndSignal (cfg : AppConfig) (now : ℚ) (m : Machine) :
    Machine × List Effect :=
  if cfg.endSignal then
    ({ m with muteUntil := now + 3 / 5, vad := m.vad.map (fun _ => vadInit) },
     [Effect.endChime])
  else (m, [])

/-- `_on_audio_data` (audio reader thread): chunks inside the mute window
are dropped before the VAD; otherwise the VAD, when present, is fed. -/
def onAudioData (cfg : AppConfig) (now : ℚ) (chunk : List Nat) (m : Machine) :
    Machine :=
  if m.muteUntil ≠ 0 ∧ now < m.muteUntil then m
  else { m with vad := m.vad.map (fun v => (vadFeed cfg.vadCfg v chunk).1) }

/-- `_stop_listening`: cancel the silence timer, flush, stop the stream,
drop the VAD and wake detector, go IDLE. -/
def stopListening (cfg : AppConfig) (m : Machine) : Machine × List Effect :=
  let fr := flushAccumulated cfg { m with silenceTimer := false }
  ({ fr.1 with vad := none, wakePresent := false, state := AppState.idle }, fr.2)

/-- `_stop_hotkey_stream`: like `_stop_listening` but keeps the (already
null) wake detector and plays the end chime. -/
def stopHotkeyStream (cfg : AppConfig) (now : ℚ) (m : Machine) :
    Machine × List Effect :=
  let fr := flushAccumulated cfg { m with silenceTimer := false }
  let pr := playEndSignal cfg now { fr.1 with vad := none, state := AppState.idle }
  (pr.1, fr.2 ++ pr.2)

/-- `_start_listening`: install the wake detector and a fresh VAD; on a
successful stream start the state becomes LISTENING, on failure it stays
IDLE (the freshly assigned detector and VAD are not rolled back). -/
def startListening (startOk : Bool) (m : Machine) : Machine :=
  if startOk then
    { m with wakePresent := true, vad := some vadInit, state := AppState.listening }
  else { m with wakePresent := true, vad := some vadInit }

/-- `_start_hotkey_stream`: clear the wake detector and the accumulated
buffer, fresh VAD; on success go DICTATING and play the start chime. -/
def startHotkeyStream (cfg : AppConfig) (now : ℚ) (startOk : Bool) (m : Machine) :
    Machine × List Effect :=
  let m1 := { m with wakePresent := false, vad := some vadInit, accumulated := [] }
  if startOk then
    playStartSignal cfg now { m1 with state := AppState.dictating }
  else (m1, [])

/-- `_start_recording`: RECORDING on success, unchanged on failure. -/
def startRecording (startOk : Bool) (m : Machine) : Machine :=
  if startOk then { m with state := AppState.recording } else m

/-- `_stop_recording`: with a recorded WAV, go PROCESSING and spawn the
transcription thread; without one, go IDLE. -/
def stopRecording (wavOk : Bool) (m : Machine) : Machine :=
  if wavOk then
    { m with state := AppState.processing, pendingTranscription := true }
  else { m with state := AppState.idle }

/-- `toggle()` dispatching on `input_mode` and the current state
(`_toggle_listen` / `_toggle_hotkey`). -/
def toggleStep (cfg : AppConfig) (now : ℚ) (startOk wavOk : Bool) (m : Machine) :
    Machine × List Effect :=
  match cfg.inputMode with
  | InputMode.listen =>
      match m.state with
      | AppState.idle => (startListening startOk m, [])
      | AppState.listening => stopListening cfg m
      | AppState.dictating => stopListening cfg m
      | _ => (m, [])
  | InputMode.hotkey =>
      match m.state with
      | AppState.idle =>
          if cfg.outputMode = OutputMode.batch then (startRecording startOk m, [])
          else startHotkeyStream cfg now startOk m
      | AppState.recording => (stopRecording wavOk m, [])
      | AppState.dictating => stopHotkeyStream cfg now m
      | _ => (m, [])

/-- The post-transcription part of `_process_speech_segment` (app.py lines
264-307), given the (possibly empty) filtered transcription of the
segment. -/
def processSegmentText (cfg : AppConfig) (det : Detector) (now : ℚ)
    (text : String) (m : Machine) : Machine × List Effect :=
  if text = "" then (m, [])
  else if m.wakePresent && det.contains text then
    let remaining := det.strip text
    match m.state with
    | AppState.listening =>
        let pr := playStartSignal cfg now
          { m with silenceTimer := false, accumulated := [],
                   state := AppState.dictating }
        (pr.1, pr.2 ++ [Effect.notify "Dictation started"])
    | AppState.dictating =>
        let m1 := { m with silenceTimer := false }
        let step2 : Machine × List Effect :=
          if remaining ≠ "" then
            if cfg.outputMode = OutputMode.stream then (m1, injectText cfg remaining)
            else ({ m1 with accumulated := m1.accumulated ++ [remaining] }, [])
          else (m1, [])
        let fr := flushAccumulated cfg step2.1
        ({ fr.1 with state := AppState.listening },
         step2.2 ++ fr.2 ++ [Effect.notify "Dictation paused"])
    | _ => (m, [])
  else
    match m.state with
    | AppState.dictating =>
        let step1 : Machine × List Effect :=
          if cfg.outputMode = OutputMode.stream then (m, injectText cfg text)
          else ({ m with accumulated := m.accumulated ++ [text] }, [])
        let m2 :=
          if cfg.inputMode = InputMode.listen then
            { step1.1 with silenceTimer := true }
          else step1.1
        (m2, step1.2 ++ (if cfg.notification then [Effect.notify (textPreview text)] else []))
    | _ => (m, [])

/-- `_on_silence_timeout`: only acts in DICTATING; a racy-read speech flag
re-arms the timer, otherwise flush, go LISTENING, notify, end chime (the
fired timer handle is left in place, exactly as the source leaves
`_silence_timer`). -/
def silenceFireStep (cfg : AppConfig) (now : ℚ) (vadInSpeech : Bool)
    (m : Machine) : Machine × List Effect :=
  if m.state = AppState.dictating then
    if vadInSpeech then ({ m with silenceTimer := true }, [])
    else
      let fr := flushAccumulated cfg m
      let pr := playEndSignal cfg now { fr.1 with state := AppState.listening }
      (pr.1, fr.2 ++ [Effect.notify "Dictation paused (silence)"] ++ pr.2)
  else (m, [])

/-- Completion of the `_transcribe_and_inject` thread: `some text` is the
(possibly empty) transcription, `none` a raised exception; the `finally`
block goes IDLE and plays the end chime in every case. -/
def transcribeDoneStep (cfg : AppConfig) (now : ℚ) (outcome : Option String)
    (m : Machine) : Machine × List Effect :=
  if m.pendingTranscription then
    let effs :=
      match outcome with
      | some t =>
          if t ≠ "" then
            injectText cfg t ++
              (if cfg.notification then [Effect.notify (textPreview t)] else [])
          else [Effect.notify "(no speech detected)"]
      | none => [Effect.notify "Error"]
    let pr := playEndSignal cfg now
      { m with pendingTranscription := false, state := AppState.idle }
    (pr.1, effs ++ pr.2)
  else (m, [])

/-- `_force_idle` (invoked by the tray when switching modes). -/
def forceIdleStep (cfg : AppConfig) (now : ℚ) (m : Machine) :
    Machine × List Effect :=
  if m.state = AppState.recording then ({ m with state := AppState.idle }, [])
  else if m.state = AppState.listening ∨ m.state = AppState.dictating then
    if cfg.inputMode = InputMode.hotkey ∧ m.state = AppState.dictating then
      stopHotkeyStream cfg now m
    else
      let r := stopListening cfg m
      ({ r.1 with state := AppState.idle }, r.2)
  else ({ m with state := AppState.idle }, [])

/-- The externally triggered coordinator events.  `startOk` / `wavOk`
resolve the outcomes of the fallible subprocess starts; `now` is the
wall-clock reading. -/
inductive Ev where
  | toggle (startOk wavOk : Bool) (now : ℚ)
  | segmentResult (text : String) (now : ℚ)
  | silenceFire (vadInSpeech : Bool) (now : ℚ)
  | transcribeDone (outcome : Option String) (now : ℚ)
  | forceIdle (now : ℚ)

/-- One coordinator step. -/
def step (cfg : AppConfig) (det : Detector) (m : Machine) :
    Ev → Machine × List Effect
  | Ev.toggle s w now => toggleStep cfg now s w m
  | Ev.segmentResult t now => processSegmentText cfg det now t m
  | Ev.silenceFire b now => silenceFireStep cfg now b m
  | Ev.transcribeDone t now => transcribeDoneStep cfg now t m
  | Ev.forceIdle now => forceIdleStep cfg now m

/-- The machine after a sequence of events from startup. -/
def runMachine (cfg : AppConfig) (det : Detector) (evs : List Ev) : Machine :=
  evs.foldl (fun m e => (step cfg det m e).1) machineInit

-- ---------------------------------------------------------------------------
-- Proof-support definitions
-- ---------------------------------------------------------------------------

/-- Unconditional little-endian encodings (the value of `struct.pack` when
it does not raise). -/
def le32 (x : Nat) : List Nat :=
  [x % 256, x / 256 % 256, x / 2 ^ 16 % 256, x / 2 ^ 24 % 256]

def le16 (x : Nat) : List Nat := [x % 256, x / 256 % 256]

/-- The 44 header bytes `_write_wav` produces before the PCM payload. -/
def wavHeader (dataSize : Nat) (sampleRate : Nat := 16000) (channels : Nat := 1)
    (bits : Nat := 16) : List Nat :=
  [0x52, 0x49, 0x46, 0x46] ++ le32 (36 + dataSize) ++ [0x57, 0x41, 0x56, 0x45] ++
    [0x66, 0x6d, 0x74, 0x20] ++ le32 16 ++ le16 1 ++ le16 channels ++
    le32 sampleRate ++ le32 (sampleRate * channels * bits / 8) ++
    le16 (channels * bits / 8) ++ le16 bits ++ [0x64, 0x61, 0x74, 0x61] ++
    le32 dataSize

/-- Invariant of the VAD core between `feed` loop iterations: outside
speech the speech buffer is empty; inside speech it is strictly below the
force-emission bound (otherwise the iteration would have emitted). -/
def VadInvC (cfg : VadConfig) (c : VadCore) : Prop :=
  (c.inSpeech = false → c.speechBuffer = []) ∧
  (c.inSpeech = true → c.speechBuffer.length < maxSpeechBytes cfg)

/-- The emitted-segment contract of claim C3, in exact milliseconds
(`seg.length / 32` is the true duration of `seg.length` bytes of 16 kHz
16-bit mono PCM). -/
def SegmentWithinBounds (cfg : VadConfig) (seg : List Nat) : Prop :=
  (cfg.minSpeechMs : ℚ) ≤ (seg.length : ℚ) / 32 ∧
  (seg.length : ℚ) / 32 ≤ cfg.maxSpeechS * 1000 + 30

/-- The byte-level bounds the induction actually maintains for every
emitted segment. -/
def SegmentRaw (cfg : VadConfig) (seg : List Nat) : Prop :=
  seg.length ≤ maxSpeechBytes cfg + frameBytes ∧
  cfg.minSpeechMs ≤ ((seg.length * 1000 / 32000 : Nat) : ℤ)

/-- The coordinator states in which no streaming session exists. -/
def NonStreaming (m : Machine) : Prop :=
  m.state = AppState.idle ∨ m.state = AppState.recording ∨
    m.state = AppState.processing

/-- The reachable-configuration invariant of the coordinator: in
IDLE/RECORDING/PROCESSING the accumulated buffer is empty and the silence
timer null; a pending hotkey-batch transcription pins the configuration;
under hotkey+batch the machine never leaves the non-streaming states; and
RECORDING/PROCESSING occur only under hotkey+batch. -/
def MachineInv (cfg : AppConfig) (m : Machine) : Prop :=
  (NonStreaming m → m.accumulated = [] ∧ m.silenceTimer = false) ∧
  (m.pendingTranscription = true →
    cfg.inputMode = InputMode.hotkey ∧ cfg.outputMode = OutputMode.batch) ∧
  (cfg.inputMode = InputMode.hotkey ∧ cfg.outputMode = OutputMode.batch →
    NonStreaming m) ∧
  ((m.state = AppState.recording ∨ m.state = AppState.processing) →
    cfg.inputMode = InputMode.hotkey ∧ cfg.outputMode = OutputMode.batch)

/-- A concrete configuration for instantiating the theorems below: listen
input, batch output, voice commands off, chimes and notifications on,
default VAD settings. -/
def fixtureConfig : AppConfig :=
  { inputMode := InputMode.listen, outputMode := OutputMode.batch,
    voiceCommands := false, commandsMap := defaultVoiceCommands,
    endSignal := true, notification := true,
    vadCfg := { threshold := 300, minSpeechMs := 500, maxSpeechS := 30 } }

/-- A concrete detector for instantiating the theorems below (wake word
`"дуняша"`). -/
def fixtureDetector : Detector :=
  { contains := fun t => t = "дуняша" || t = "вторая часть дуняша",
    strip := fun t => if t = "вторая часть дуняша" then "вторая часть" else "" }

-- ---------------------------------------------------------------------------
-- Theorems
-- ---------------------------------------------------------------------------

/-- C5: `VoiceCommands.process` scans tokens left to right with a pending
buffer — a key-press command first injects the space-joined buffer (when
non-empty) and clears it, then sends its key; `backspace` pops the
buffer's last token without injection when non-empty and otherwise sends
`ctrl+BackSpace`; a non-command token joins the buffer, flushed at the
end.  Hence `process("hello enter world")` yields `inject("hello")`,
`key("Return")`, `inject("world")` in that order, and
`process("hello world backspace more")` yields the single call
`inject("hello more")` and no key calls. -/
theorem voice_command_scan :
    (∀ cmds w ws buf act, matchCommand cmds (cleanTok w) = some act →
        act ≠ "backspace" →
        processLoop cmds (w :: ws) buf =
          (if buf.isEmpty then []
           else [Effect.inject (String.intercalate " " buf)]) ++
            Effect.sendKey (act.drop 4) :: processLoop cmds ws []) ∧
    (∀ cmds w ws buf, matchCommand cmds (cleanTok w) = some "backspace" →
        processLoop cmds (w :: ws) buf =
          if buf.isEmpty then
            Effect.sendKey "ctrl+BackSpace" :: processLoop cmds ws buf
          else processLoop cmds ws buf.dropLast) ∧
    (∀ cmds w ws buf, matchCommand cmds (cleanTok w) = none →
        processLoop cmds (w :: ws) buf = processLoop cmds ws (buf ++ [w])) ∧
    processEvents defaultVoiceCommands "hello enter world" =
      [Effect.inject "hello", Effect.sendKey "Return", Effect.inject "world"] ∧
    processEvents defaultVoiceCommands "hello world backspace more" =
      [Effect.inject "hello more"] := by
  refine ⟨?_, ?_, ?_, by decide, by decide⟩
  · intro cmds w ws buf act h hne
    simp only [processLoop, h]
    rw [if_neg hne]
  · intro cmds w ws buf h
    simp [processLoop, h]
  · intro cmds w ws buf h
    simp only [processLoop, h]

/-- Witness for C5's conditional clauses: the `backspace` rule applied to
an empty buffer at a concrete token. -/
theorem voice_command_scan_witness :
    processLoop defaultVoiceCommands ["backspace"] [] =
      (if (List.isEmpty ([] : List String)) then
        Effect.sendKey "ctrl+BackSpace" :: processLoop defaultVoiceCommands [] []
      else processLoop defaultVoiceCommands [] (List.dropLast [])) :=
  voice_command_scan.2.1 defaultVoiceCommands "backspace" [] [] (by decide)

/-- When no token of `ws` matches a command, the scan is a pure
accumulation: the result is one injection of everything joined. -/
theorem processLoop_all_none (cmds : List (String × String)) :
    ∀ ws buf, (∀ w ∈ ws, matchCommand cmds (cleanTok w) = none) →
      processLoop cmds ws buf =
        if (buf ++ ws).isEmpty then []
        else [Effect.inject (String.intercalate " " (buf ++ ws))] := by
  intro ws
  induction ws with
  | nil => intro buf _; simp [processLoop]
  | cons w ws ih =>
      intro buf h
      have hw := h w (List.mem_cons_self w ws)
      simp only [processLoop, hw]
      rw [ih (buf ++ [w]) (fun x hx => h x (List.mem_cons_of_mem _ hx))]
      simp [List.append_assoc]

/-- C6 counterexample: the claim promises `inject` is called with the very
same text, but `process` re-joins the split tokens with single spaces, so
`"a  b"` (with two spaces, none of whose tokens matches any default
command) is injected as `"a b"`; a whitespace-only non-empty text yields
no call at all. -/
theorem process_without_commands_counterexample :
    (∀ w ∈ pyWords "a  b", matchCommand defaultVoiceCommands (cleanTok w) = none) ∧
    "a  b" ≠ "" ∧
    processEvents defaultVoiceCommands "a  b" = [Effect.inject "a b"] ∧
    "a b" ≠ "a  b" ∧
    (∀ w ∈ pyWords " ", matchCommand defaultVoiceCommands (cleanTok w) = none) ∧
    " " ≠ "" ∧
    processEvents defaultVoiceCommands " " = [] := by
  decide

/-- C6 amended: for a text none of whose tokens matches a command entry,
`process` never calls the key function, and when the text has at least one
token it calls the inject function exactly once, with the text's tokens
joined by single spaces (equal to the text itself whenever the text is
already single-space separated). -/
theorem process_without_commands (cmds : List (String × String)) (text : String)
    (h : ∀ w ∈ pyWords text, matchCommand cmds (cleanTok w) = none) :
    (∀ k, Effect.sendKey k ∉ processEvents cmds text) ∧
    (pyWords text ≠ [] →
      processEvents cmds text =
        [Effect.inject (String.intercalate " " (pyWords text))]) := by
  have hl := processLoop_all_none cmds (pyWords text) [] h
  unfold processEvents
  by_cases hnil : pyWords text = []
  · simp [hnil]
  · have hne : (pyWords text).isEmpty = false := by
      simpa [List.isEmpty_iff] using hnil
    simp only [hne, Bool.false_eq_true, if_false, List.nil_append] at hl ⊢
    rw [hl]
    simp [List.isEmpty_iff, hnil]

/-- Witness for C6's amended theorem at the command-free text `"hello"`. -/
theorem process_without_commands_witness :
    processEvents defaultVoiceCommands "hello" =
      [Effect.inject (String.intercalate " " (pyWords "hello"))] :=
  (process_without_commands defaultVoiceCommands "hello" (by decide)).2 (by decide)

/-- C2: for positive known duration, the speech-rate layer rejects exactly
when the word count exceeds `max(2, d·5)` or the space-free character
count exceeds `max(10, d·25)`; in particular the five-word text at
`d = 0.5` is rejected and the single word `"Привет"` at `d = 0.6` is
not. -/
theorem speech_rate_layer (text : String) (d : ℚ) (hd : 0 < d) :
    (speechRateReject text d = true ↔
      ((wordCount text : ℚ) > max 2 (d * 5) ∨
        (charCountNoSpaces text : ℚ) > max 10 (d * 25))) ∧
    speechRateReject "Один два три четыре пять" (mkRat 1 2) = true ∧
    speechRateReject "Привет" (mkRat 3 5) = false := by
  refine ⟨?_, ?_, ?_⟩
  · unfold speechRateReject
    rw [if_pos hd]
    simp [maxWordsPerSec, maxCharsPerSec]
  · unfold speechRateReject
    rw [if_pos (by norm_num [Rat.mkRat_eq_div])]
    have hw : wordCount "Один два три четыре пять" = 5 := by decide
    rw [hw]
    norm_num [Rat.mkRat_eq_div, maxWordsPerSec, max_lt_iff]
  · unfold speechRateReject
    rw [if_pos (by norm_num [Rat.mkRat_eq_div])]
    have hw : wordCount "Привет" = 1 := by decide
    have hc : charCountNoSpaces "Привет" = 6 := by decide
    rw [hw, hc]
    norm_num [Rat.mkRat_eq_div, maxWordsPerSec, maxCharsPerSec, max_lt_iff]

/-- Witness for C2 at `"Привет"`, `d = 0.6`. -/
theorem speech_rate_layer_witness :
    speechRateReject "Привет" (mkRat 3 5) = false :=
  (speech_rate_layer "Привет" (mkRat 3 5) (by decide)).2.2

/-- The head surviving `dropWhile` fails the predicate. -/
theorem dropWhile_head_not {α : Type} (p : α → Bool) :
    ∀ (l : List α) (c : α) (t : List α), l.dropWhile p = c :: t → p c = false := by
  intro l
  induction l with
  | nil => intro c t h; simp [List.dropWhile] at h
  | cons a as ih =>
      intro c t h
      rw [List.dropWhile_cons] at h
      split at h
      · exact ih _ _ h
      · cases h
        simp_all

/-- `pyStrip` output is empty or contains a non-whitespace character. -/
theorem pyStrip_no_ws_only (l : List Char) :
    pyStrip l = [] ∨ ∃ c ∈ pyStrip l, pyIsWs c = false := by
  unfold pyStrip
  cases hy : (l.dropWhile pyIsWs).reverse.dropWhile pyIsWs with
  | nil => left; rfl
  | cons c t =>
      right
      exact ⟨c, by simp, dropWhile_head_not _ _ _ _ hy⟩

/-- C4 counterexample: with exit status zero, stdout
`"Один два три четыре пять"` (no sentinel, no surrounding whitespace) and
a known duration of 0.5 s, `transcribe` returns `""`, not the stripped
stdout — the hallucination filter runs inside `transcribe` and blanks the
text, so the claim's unconditional description of the return value is
false. -/
theorem transcribe_success_counterexample :
    transcribeRun 0 "Один два три четыре пять" "" (mkRat 1 2) = Except.ok "" ∧
    stripSentinelTrim "Один два три четыре пять" = "Один два три четыре пять" ∧
    ("" : String) ≠ "Один два три четыре пять" := by
  refine ⟨?_, by decide, by decide⟩
  unfold transcribeRun
  rw [if_neg (by decide)]
  have hs : stripSentinelTrim "Один два три четыре пять" =
      "Один два три четыре пять" := by decide
  rw [hs, if_pos]
  constructor
  · decide
  · unfold isHallucination
    have h1 : patternReject "Один два три четыре пять" = false := by decide
    rw [h1]
    simp only [Bool.false_or]
    unfold speechRateReject
    rw [if_pos (by decide)]
    have hw : wordCount "Один два три четыре пять" = 5 := by decide
    rw [hw]
    norm_num [Rat.mkRat_eq_div, maxWordsPerSec, max_lt_iff]

/-- C4 amended: on exit status zero `transcribe` returns (never raises) the
stdout trimmed of whitespace with the `[BLANK_AUDIO]` sentinel occurrences
removed by one left-to-right pass — except that a non-empty stripped
result classified as a hallucination for the given duration is replaced by
`""`; an empty result is a legitimate return value, and the returned
string is empty or contains a non-whitespace character (never
whitespace-only). -/
theorem transcribe_success (stdout stderr : String) (d : ℚ) :
    ∃ r, transcribeRun 0 stdout stderr d = Except.ok r ∧
      (stripSentinelTrim stdout ≠ "" ∧
          isHallucination (stripSentinelTrim stdout) d = true →
        r = "") ∧
      (¬ (stripSentinelTrim stdout ≠ "" ∧
          isHallucination (stripSentinelTrim stdout) d = true) →
        r = stripSentinelTrim stdout) ∧
      (r ≠ "" → ∃ c ∈ r.data, pyIsWs c = false) := by
  unfold transcribeRun
  rw [if_neg (by simp)]
  by_cases hh : stripSentinelTrim stdout ≠ "" ∧
      isHallucination (stripSentinelTrim stdout) d = true
  · exact ⟨"", by rw [if_pos hh], fun _ => rfl, fun hn => absurd hh hn, by simp⟩
  · refine ⟨stripSentinelTrim stdout, by rw [if_neg hh],
      fun hcontra => absurd hcontra hh, fun _ => rfl, ?_⟩
    intro hne
    have hstr := pyStrip_no_ws_only
      (pyReplaceEmpty blankAudioSentinel (pyStrip stdout.data))
    cases hstr with
    | inl h0 =>
        exact absurd (show stripSentinelTrim stdout = "" by
          unfold stripSentinelTrim; rw [h0]; rfl) hne
    | inr hex =>
        obtain ⟨c, hc, hcw⟩ := hex
        exact ⟨c, hc, hcw⟩

/-- Witness for C4's amended theorem: one concrete run through the
hallucination-filtered branch (five words in half a second, returned as
`""`) and one through the plain branch (sentinel stripped, text kept). -/
theorem transcribe_success_witness :
    (∃ r, transcribeRun 0 "Один два три четыре пять" "" (mkRat 1 2) = Except.ok r ∧
      (stripSentinelTrim "Один два три четыре пять" ≠ "" ∧
          isHallucination (stripSentinelTrim "Один два три четыре пять") (mkRat 1 2) = true →
        r = "") ∧
      (¬ (stripSentinelTrim "Один два три четыре пять" ≠ "" ∧
          isHallucination (stripSentinelTrim "Один два три четыре пять") (mkRat 1 2) = true) →
        r = stripSentinelTrim "Один два три четыре пять") ∧
      (r ≠ "" → ∃ c ∈ r.data, pyIsWs c = false)) ∧
    (∃ r, transcribeRun 0 " привет [BLANK_AUDIO] " "" 1 = Except.ok r ∧
      (stripSentinelTrim " привет [BLANK_AUDIO] " ≠ "" ∧
          isHallucination (stripSentinelTrim " привет [BLANK_AUDIO] ") 1 = true →
        r = "") ∧
      (¬ (stripSentinelTrim " привет [BLANK_AUDIO] " ≠ "" ∧
          isHallucination (stripSentinelTrim " привет [BLANK_AUDIO] ") 1 = true) →
        r = stripSentinelTrim " привет [BLANK_AUDIO] ") ∧
      (r ≠ "" → ∃ c ∈ r.data, pyIsWs c = false)) :=
  ⟨transcribe_success "Один два три четыре пять" "" (mkRat 1 2),
   transcribe_success " привет [BLANK_AUDIO] " "" 1⟩

/-- `struct.pack("<I", x)` succeeds on an in-range value. -/
theorem pack32_eq (x : Nat) (h : x < 2 ^ 32) : pack32 x = some (le32 x) := by
  unfold pack32 le32
  rw [if_pos h]

/-- `struct.pack("<H", x)` succeeds on an in-range value. -/
theorem pack16_eq (x : Nat) (h : x < 2 ^ 16) : pack16 x = some (le16 x) := by
  unfold pack16 le16
  rw [if_pos h]

/-- `_write_wav` output value for a PCM payload within the RIFF size
limit. -/
theorem writeWav_eq (pcm : List Nat) (h : pcm.length + 36 < 2 ^ 32) :
    writeWavBytes pcm = some (wavHeader pcm.length ++ pcm) := by
  simp only [writeWavBytes]
  rw [pack32_eq (36 + pcm.length) (by omega), pack32_eq 16 (by norm_num),
    pack16_eq 1 (by norm_num), pack32_eq 16000 (by norm_num),
    pack32_eq (16000 * 1 * 16 / 8) (by norm_num), pack16_eq (1 * 16 / 8) (by norm_num),
    pack16_eq 16 (by norm_num), pack32_eq pcm.length (by omega)]
  simp [wavHeader, List.append_assoc]

/-- C7: the file `_write_wav` produces is the 44-byte RIFF/fmt/data header
followed by the PCM payload verbatim; the data-chunk length field (offset
40) is the little-endian byte length of the PCM input, the channel field
declares mono, the sample-rate field 16000 Hz, and the bits-per-sample
field 16. -/
theorem write_wav_layout (pcm : List Nat) (h : pcm.length + 36 < 2 ^ 32) :
    writeWavBytes pcm = some (wavHeader pcm.length ++ pcm) ∧
    (wavHeader pcm.length).length = 44 ∧
    (wavHeader pcm.length ++ pcm).drop 44 = pcm ∧
    List.take 4 ((wavHeader pcm.length ++ pcm).drop 40) = le32 pcm.length ∧
    List.take 2 ((wavHeader pcm.length ++ pcm).drop 22) = le16 1 ∧
    List.take 4 ((wavHeader pcm.length ++ pcm).drop 24) = le32 16000 ∧
    List.take 2 ((wavHeader pcm.length ++ pcm).drop 34) = le16 16 := by
  have hsplit : ∀ (A B C : List Nat),
      List.take B.length ((A ++ (B ++ C)).drop A.length) = B := by
    intro A B C
    rw [List.drop_left, List.take_left]
  have hlen : (wavHeader pcm.length).length = 44 := by
    simp [wavHeader, le32, le16]
  refine ⟨writeWav_eq pcm h, hlen, ?_, ?_, ?_, ?_, ?_⟩
  · rw [← hlen, List.drop_left]
  · have he : wavHeader pcm.length ++ pcm =
        ([0x52, 0x49, 0x46, 0x46] ++ le32 (36 + pcm.length) ++
          [0x57, 0x41, 0x56, 0x45] ++ [0x66, 0x6d, 0x74, 0x20] ++ le32 16 ++
          le16 1 ++ le16 1 ++ le32 16000 ++ le32 (16000 * 1 * 16 / 8) ++
          le16 (1 * 16 / 8) ++ le16 16 ++ [0x64, 0x61, 0x74, 0x61]) ++
          (le32 pcm.length ++ pcm) := by
      simp [wavHeader, List.append_assoc]
    rw [he, show (40 : Nat) = ([0x52, 0x49, 0x46, 0x46] ++ le32 (36 + pcm.length) ++
      [0x57, 0x41, 0x56, 0x45] ++ [0x66, 0x6d, 0x74, 0x20] ++ le32 16 ++
      le16 1 ++ le16 1 ++ le32 16000 ++ le32 (16000 * 1 * 16 / 8) ++
      le16 (1 * 16 / 8) ++ le16 16 ++ [0x64, 0x61, 0x74, 0x61]).length
      from by simp [le32, le16],
      show (4 : Nat) = (le32 pcm.length).length from by simp [le32]]
    exact hsplit _ _ _
  · have he : wavHeader pcm.length ++ pcm =
        ([0x52, 0x49, 0x46, 0x46] ++ le32 (36 + pcm.length) ++
          [0x57, 0x41, 0x56, 0x45] ++ [0x66, 0x6d, 0x74, 0x20] ++ le32 16 ++
          le16 1) ++
          (le16 1 ++ (le32 16000 ++ le32 (16000 * 1 * 16 / 8) ++
            le16 (1 * 16 / 8) ++ le16 16 ++ [0x64, 0x61, 0x74, 0x61] ++
            le32 pcm.length ++ pcm)) := by
      simp [wavHeader, List.append_assoc]
    rw [he, show (22 : Nat) = ([0x52, 0x49, 0x46, 0x46] ++ le32 (36 + pcm.length) ++
      [0x57, 0x41, 0x56, 0x45] ++ [0x66, 0x6d, 0x74, 0x20] ++ le32 16 ++
      le16 1).length from by simp [le32, le16],
      show (2 : Nat) = (le16 1).length from by simp [le16]]
    exact hsplit _ _ _
  · have he : wavHeader pcm.length ++ pcm =
        ([0x52, 0x49, 0x46, 0x46] ++ le32 (36 + pcm.length) ++
          [0x57, 0x41, 0x56, 0x45] ++ [0x66, 0x6d, 0x74, 0x20] ++ le32 16 ++
          le16 1 ++ le16 1) ++
          (le32 16000 ++ (le32 (16000 * 1 * 16 / 8) ++
            le16 (1 * 16 / 8) ++ le16 16 ++ [0x64, 0x61, 0x74, 0x61] ++
            le32 pcm.length ++ pcm)) := by
      simp [wavHeader, List.append_assoc]
    rw [he, show (24 : Nat) = ([0x52, 0x49, 0x46, 0x46] ++ le32 (36 + pcm.length) ++
      [0x57, 0x41, 0x56, 0x45] ++ [0x66, 0x6d, 0x74, 0x20] ++ le32 16 ++
      le16 1 ++ le16 1).length from by simp [le32, le16],
      show (4 : Nat) = (le32 16000).length from by simp [le32]]
    exact hsplit _ _ _
  · have he : wavHeader pcm.length ++ pcm =
        ([0x52, 0x49, 0x46, 0x46] ++ le32 (36 + pcm.length) ++
          [0x57, 0x41, 0x56, 0x45] ++ [0x66, 0x6d, 0x74, 0x20] ++ le32 16 ++
          le16 1 ++ le16 1 ++ le32 16000 ++ le32 (16000 * 1 * 16 / 8) ++
          le16 (1 * 16 / 8)) ++
          (le16 16 ++ ([0x64, 0x61, 0x74, 0x61] ++ le32 pcm.length ++ pcm)) := by
      simp [wavHeader, List.append_assoc]
    rw [he, show (34 : Nat) = ([0x52, 0x49, 0x46, 0x46] ++ le32 (36 + pcm.length) ++
      [0x57, 0x41, 0x56, 0x45] ++ [0x66, 0x6d, 0x74, 0x20] ++ le32 16 ++
      le16 1 ++ le16 1 ++ le32 16000 ++ le32 (16000 * 1 * 16 / 8) ++
      le16 (1 * 16 / 8)).length from by simp [le32, le16],
      show (2 : Nat) = (le16 16).length from by simp [le16]]
    exact hsplit _ _ _

/-- Witness for C7 at a three-byte payload. -/
theorem write_wav_layout_witness :
    writeWavBytes [1, 2, 3] = some (wavHeader (List.length [1, 2, 3]) ++ [1, 2, 3]) :=
  (write_wav_layout [1, 2, 3] (by decide)).1

/-- C8: an audio chunk arriving while the wall clock is before the mute
deadline is dropped before the VAD sees any of it; and whenever the
start- or end-chime routine plays its chime (that is, in every state and
at every time, as soon as `end_signal` enables chimes), it sets the
deadline to `now + 0.6 s` and resets the VAD. -/
theorem mute_window (cfg : AppConfig) (m : Machine) (now : ℚ) (chunk : List Nat) :
    (0 ≤ now → now < m.muteUntil → onAudioData cfg now chunk m = m) ∧
    (cfg.endSignal = true →
      playStartSignal cfg now m =
        ({ m with muteUntil := now + 3 / 5, vad := m.vad.map (fun _ => vadInit) },
         [Effect.startChime]) ∧
      playEndSignal cfg now m =
        ({ m with muteUntil := now + 3 / 5, vad := m.vad.map (fun _ => vadInit) },
         [Effect.endChime])) := by
  constructor
  · intro h0 hm
    have hpos : m.muteUntil ≠ 0 := ne_of_gt (lt_of_le_of_lt h0 hm)
    unfold onAudioData
    rw [if_pos ⟨hpos, hm⟩]
  · intro hes
    constructor <;> simp [playStartSignal, playEndSignal, hes]

/-- Witness for C8: a muted chunk dropped at time 0 with deadline 1, and a
start chime played from the startup state (`muteUntil = 0`). -/
theorem mute_window_witness :
    onAudioData fixtureConfig 0 [] { machineInit with muteUntil := 1 } =
      { machineInit with muteUntil := 1 } ∧
    playStartSignal fixtureConfig 0 machineInit =
      ({ state := AppState.idle, accumulated := [], silenceTimer := false,
          wakePresent := false, vad := none, muteUntil := 0 + 3 / 5,
          pendingTranscription := false },
       [Effect.startChime]) :=
  ⟨(mute_window fixtureConfig { machineInit with muteUntil := 1 } 0 []).1
      (by decide) (by decide),
   ((mute_window fixtureConfig machineInit 0 []).2 rfl).1⟩

/-- C10: on the LISTENING-to-DICTATING wake transition the residue of the
segment after stripping the wake word is discarded — `det.strip` does not
occur in the outcome, no injection happens, nothing is accumulated — and
the step performs exactly the buffer clear, the state change, the start
chime with its mute deadline and VAD reset, and the notification (the
timer cancel is a no-op here: LISTENING holds no armed timer). -/
theorem listening_wake_residue_discarded (cfg : AppConfig) (det : Detector)
    (s : Machine) (text : String) (now : ℚ)
    (hes : cfg.endSignal = true)
    (hw : s.wakePresent = true) (hst : s.state = AppState.listening)
    (hc : det.contains text = true) (ht : text ≠ "") :
    step cfg det s (Ev.segmentResult text now) =
      ({ s with state := AppState.dictating, accumulated := [],
                silenceTimer := false, muteUntil := now + 3 / 5,
                vad := s.vad.map (fun _ => vadInit) },
       [Effect.startChime, Effect.notify "Dictation started"]) := by
  show processSegmentText cfg det now text s = _
  unfold processSegmentText
  rw [if_neg ht, hw, hc, hst]
  simp [playStartSignal, hes]

/-- Witness for C10 with the fixture detector and wake word text. -/
theorem listening_wake_residue_discarded_witness :
    step fixtureConfig fixtureDetector
        { machineInit with state := AppState.listening, wakePresent := true }
        (Ev.segmentResult "дуняша" 0) =
      ({ state := AppState.dictating, accumulated := [], silenceTimer := false,
          wakePresent := true, vad := none, muteUntil := 0 + 3 / 5,
          pendingTranscription := false },
       [Effect.startChime, Effect.notify "Dictation started"]) :=
  listening_wake_residue_discarded fixtureConfig fixtureDetector
    { machineInit with state := AppState.listening, wakePresent := true }
    "дуняша" 0 rfl rfl rfl (by decide) (by decide)

/-- C1: in a listen-mode batch-output session (wake detector installed,
plain injection), a worker result in DICTATING whose text contains the
wake word injects exactly once — the space-joined concatenation of the
accumulated texts followed by the non-empty residue of stripping the wake
word (just the accumulated texts when the residue is empty) — then goes
LISTENING with the buffer cleared. -/
theorem dictating_wake_batch_flush (cfg : AppConfig) (det : Detector)
    (s : Machine) (text : String) (now : ℚ)
    (_hin : cfg.inputMode = InputMode.listen)
    (hout : cfg.outputMode = OutputMode.batch)
    (hvc : cfg.voiceCommands = false)
    (hw : s.wakePresent = true) (hst : s.state = AppState.dictating)
    (hacc : s.accumulated ≠ []) (hc : det.contains text = true) (ht : text ≠ "") :
    step cfg det s (Ev.segmentResult text now) =
      ({ s with state := AppState.listening, silenceTimer := false,
                accumulated := [] },
       [Effect.inject (String.intercalate " " (s.accumulated ++
          (if det.strip text = "" then [] else [det.strip text]))),
        Effect.notify "Dictation paused"]) := by
  show processSegmentText cfg det now text s = _
  unfold processSegmentText
  rw [if_neg ht, hw, hc, hst]
  have hae : s.accumulated.isEmpty = false := by
    simpa [List.isEmpty_iff] using hacc
  by_cases hrem : det.strip text = ""
  · simp [hrem, flushAccumulated, hae, injectText, hvc]
  · simp [hrem, hout, flushAccumulated, injectText, hvc]

/-- Witness for C1: accumulated `["первая часть"]`, worker text
`"вторая часть дуняша"`, residue `"вторая часть"`. -/
theorem dictating_wake_batch_flush_witness :
    step fixtureConfig fixtureDetector
        { machineInit with state := AppState.dictating, wakePresent := true,
                           accumulated := ["первая часть"] }
        (Ev.segmentResult "вторая часть дуняша" 0) =
      ({ state := AppState.listening, accumulated := [], silenceTimer := false,
          wakePresent := true, vad := none, muteUntil := 0,
          pendingTranscription := false },
       [Effect.inject (String.intercalate " " (["первая часть"] ++
          (if fixtureDetector.strip "вторая часть дуняша" = "" then []
           else [fixtureDetector.strip "вторая часть дуняша"]))),
        Effect.notify "Dictation paused"]) :=
  dictating_wake_batch_flush fixtureConfig fixtureDetector
    { machineInit with state := AppState.dictating, wakePresent := true,
                       accumulated := ["первая часть"] }
    "вторая часть дуняша" 0 rfl rfl rfl rfl rfl (by decide) (by decide) (by decide)

/-- `_emit_speech` resets the core fields identically whether it emitted or
discarded. -/
theorem emitSpeech_core (cfg : VadConfig) (c : VadCore) :
    (emitSpeech cfg c).1 = ⟨[], false, 0⟩ := by
  by_cases hc : cfg.minSpeechMs ≤ ((c.speechBuffer.length * 1000 / 32000 : Nat) : ℤ)
  · simp only [emitSpeech]
    rw [if_pos hc]
  · simp only [emitSpeech]
    rw [if_neg hc]

/-- Whatever `_emit_speech` delivers is the full speech buffer and meets the
`min_speech_ms` floor. -/
theorem emitSpeech_mem (cfg : VadConfig) (c : VadCore) (seg : List Nat)
    (h : seg ∈ (emitSpeech cfg c).2.toList) :
    seg = c.speechBuffer ∧
      cfg.minSpeechMs ≤ ((c.speechBuffer.length * 1000 / 32000 : Nat) : ℤ) := by
  by_cases hc : cfg.minSpeechMs ≤ ((c.speechBuffer.length * 1000 / 32000 : Nat) : ℤ)
  · simp only [emitSpeech] at h
    rw [if_pos hc] at h
    simp [Option.toList] at h
    exact ⟨h, hc⟩
  · simp only [emitSpeech] at h
    rw [if_neg hc] at h
    simp [Option.toList] at h

/-- A speech region under the `min_speech_ms` floor is discarded silently. -/
theorem emitSpeech_none (cfg : VadConfig) (c : VadCore)
    (h : ¬ cfg.minSpeechMs ≤ ((c.speechBuffer.length * 1000 / 32000 : Nat) : ℤ)) :
    (emitSpeech cfg c).2 = none := by
  simp only [emitSpeech]
  rw [if_neg h]

/-- The classification step preserves emptiness-outside-speech, grows the
speech buffer by at most one frame past the force bound, and only emits
segments within the raw bounds. -/
theorem processFrameA_spec (cfg : VadConfig) (frame : List Nat) (c : VadCore)
    (hinv : VadInvC cfg c) (hf : frame.length = frameBytes) :
    ((processFrameA cfg frame c).1.inSpeech = false →
        (processFrameA cfg frame c).1.speechBuffer = []) ∧
    (processFrameA cfg frame c).1.speechBuffer.length ≤ maxSpeechBytes cfg + frameBytes ∧
    ∀ seg ∈ (processFrameA cfg frame c).2, SegmentRaw cfg seg := by
  obtain ⟨h0, h1⟩ := hinv
  unfold processFrameA
  by_cases hsp : frameIsSpeech cfg.threshold frame = true
  · rw [if_pos hsp]
    cases hins : c.inSpeech with
    | true =>
        have hlt := h1 hins
        simp only [hins, if_true]
        refine ⟨by simp, ?_, by simp⟩
        simp only [List.length_append, hf]
        omega
    | false =>
        have hbe := h0 hins
        simp only [hins, if_false, Bool.false_eq_true]
        refine ⟨by simp, ?_, by simp⟩
        simp only [hbe, List.length_append, List.length_nil, hf]
        omega
  · rw [if_neg hsp]
    cases hins : c.inSpeech with
    | true =>
        have hlt := h1 hins
        simp only [hins, if_true]
        by_cases hsil : silenceFramesLimit ≤ c.silentCount + 1
        · rw [if_pos hsil]
          rw [emitSpeech_core]
          refine ⟨fun _ => rfl, by simp, ?_⟩
          intro seg hmem
          obtain ⟨he, hmin⟩ := emitSpeech_mem _ _ _ hmem
          refine ⟨?_, ?_⟩
          · rw [he]
            simp only [List.length_append, hf]
            omega
          · rw [he]
            exact hmin
        · rw [if_neg hsil]
          refine ⟨by simp, ?_, by simp⟩
          simp only [List.length_append, hf]
          omega
    | false =>
        have hbe := h0 hins
        simp only [hins, if_false, Bool.false_eq_true]
        refine ⟨fun _ => hbe, ?_, by simp⟩
        rw [hbe]
        simp

/-- One full frame iteration preserves the VAD invariant and only emits
segments within the raw bounds. -/
theorem processFrame_spec (cfg : VadConfig) (frame : List Nat) (c : VadCore)
    (hinv : VadInvC cfg c) (hf : frame.length = frameBytes) :
    VadInvC cfg (processFrame cfg frame c).1 ∧
    ∀ seg ∈ (processFrame cfg frame c).2, SegmentRaw cfg seg := by
  obtain ⟨hA0, hA1, hAsegs⟩ := processFrameA_spec cfg frame c hinv hf
  unfold processFrame
  by_cases hck : ((processFrameA cfg frame c).1.inSpeech &&
      decide (maxSpeechBytes cfg ≤ (processFrameA cfg frame c).1.speechBuffer.length)) = true
  · rw [if_pos hck]
    constructor
    · rw [emitSpeech_core]
      exact ⟨fun _ => rfl, fun hcontra => absurd hcontra (by decide)⟩
    · intro seg hmem
      replace hmem : seg ∈ (processFrameA cfg frame c).2 ++
          (emitSpeech cfg (processFrameA cfg frame c).1).2.toList := hmem
      rcases List.mem_append.mp hmem with hmA | hmB
      · exact hAsegs seg hmA
      · obtain ⟨he, hmin⟩ := emitSpeech_mem _ _ _ hmB
        rw [he]
        exact ⟨hA1, hmin⟩
  · rw [if_neg hck]
    refine ⟨⟨hA0, ?_⟩, hAsegs⟩
    intro hins
    by_contra hge
    exact hck (by
      rw [hins]
      simp only [Bool.true_and, decide_eq_true_eq]
      omega)

/-- The frame-draining loop preserves the invariant and the emitted-segment
bounds. -/
theorem drainFrames_spec (cfg : VadConfig) :
    ∀ (fuel : Nat) (buf : List Nat) (c : VadCore), VadInvC cfg c →
      VadInvC cfg (drainFrames cfg fuel buf c).2.1 ∧
      ∀ seg ∈ (drainFrames cfg fuel buf c).2.2, SegmentRaw cfg seg := by
  intro fuel
  induction fuel with
  | zero =>
      intro buf c h
      exact ⟨h, by simp [drainFrames]⟩
  | succ n ih =>
      intro buf c h
      unfold drainFrames
      by_cases hb : frameBytes ≤ buf.length
      · rw [if_pos hb]
        have hf : (buf.take frameBytes).length = frameBytes := by
          simp [List.length_take]
          omega
        obtain ⟨h1, h2⟩ := processFrame_spec cfg (buf.take frameBytes) c h hf
        obtain ⟨h3, h4⟩ := ih (buf.drop frameBytes) (processFrame cfg (buf.take frameBytes) c).1 h1
        refine ⟨h3, ?_⟩
        intro seg hmem
        replace hmem : seg ∈ (processFrame cfg (buf.take frameBytes) c).2 ++
            (drainFrames cfg n (buf.drop frameBytes)
              (processFrame cfg (buf.take frameBytes) c).1).2.2 := hmem
        rcases List.mem_append.mp hmem with hmA | hmB
        · exact h2 seg hmA
        · exact h4 seg hmB
      · rw [if_neg hb]
        exact ⟨h, by simp⟩

/-- `feed` preserves the invariant and the emitted-segment bounds. -/
theorem vadFeed_spec (cfg : VadConfig) (s : VadState) (chunk : List Nat)
    (h : VadInvC cfg s.core) :
    VadInvC cfg (vadFeed cfg s chunk).1.core ∧
    ∀ seg ∈ (vadFeed cfg s chunk).2, SegmentRaw cfg seg :=
  drainFrames_spec cfg (s.buffer ++ chunk).length (s.buffer ++ chunk) s.core h

/-- Folding `feed` over any chunk sequence keeps every collected segment
within the raw bounds. -/
theorem runVadAux_spec (cfg : VadConfig) :
    ∀ (chunks : List (List Nat)) (init : VadState × List (List Nat)),
      VadInvC cfg init.1.core → (∀ seg ∈ init.2, SegmentRaw cfg seg) →
      VadInvC cfg ((chunks.foldl
          (fun acc chunk =>
            let r := vadFeed cfg acc.1 chunk
            (r.1, acc.2 ++ r.2)) init)).1.core ∧
      ∀ seg ∈ ((chunks.foldl
          (fun acc chunk =>
            let r := vadFeed cfg acc.1 chunk
            (r.1, acc.2 ++ r.2)) init)).2, SegmentRaw cfg seg := by
  intro chunks
  induction chunks with
  | nil => intro init h1 h2; exact ⟨h1, h2⟩
  | cons ch chs ih =>
      intro init h1 h2
      obtain ⟨hf1, hf2⟩ := vadFeed_spec cfg init.1 ch h1
      refine ih ((vadFeed cfg init.1 ch).1, init.2 ++ (vadFeed cfg init.1 ch).2) hf1 ?_
      intro seg hmem
      rcases List.mem_append.mp hmem with hmA | hmB
      · exact h2 seg hmA
      · exact hf2 seg hmB

/-- The truncated byte bound is below the exact one. -/
theorem maxSpeechBytes_le (cfg : VadConfig) (h : 0 ≤ cfg.maxSpeechS) :
    ((maxSpeechBytes cfg : ℕ) : ℚ) ≤ cfg.maxSpeechS * 32000 := by
  unfold maxSpeechBytes
  have hden : (0 : ℤ) < (cfg.maxSpeechS.den : ℤ) := by
    exact_mod_cast cfg.maxSpeechS.den_pos
  have hnum : 0 ≤ cfg.maxSpeechS.num := Rat.num_nonneg.mpr h
  have hnn : 0 ≤ cfg.maxSpeechS.num * 32000 := by positivity
  rw [Int.tdiv_eq_ediv hnn (le_of_lt hden)]
  have hge : 0 ≤ cfg.maxSpeechS.num * 32000 / (cfg.maxSpeechS.den : ℤ) :=
    Int.ediv_nonneg hnn (le_of_lt hden)
  have hcast : ((Int.toNat (cfg.maxSpeechS.num * 32000 / (cfg.maxSpeechS.den : ℤ)) : ℕ) : ℚ) =
      ((cfg.maxSpeechS.num * 32000 / (cfg.maxSpeechS.den : ℤ) : ℤ) : ℚ) := by
    exact_mod_cast congrArg (fun z : ℤ => (z : ℚ)) (Int.toNat_of_nonneg hge)
  rw [hcast]
  have hmul : cfg.maxSpeechS.num * 32000 / (cfg.maxSpeechS.den : ℤ) * (cfg.maxSpeechS.den : ℤ) ≤
      cfg.maxSpeechS.num * 32000 := Int.ediv_mul_le _ (ne_of_gt hden)
  have hdq : (0 : ℚ) < ((cfg.maxSpeechS.den : ℤ) : ℚ) := by exact_mod_cast hden
  have heq : cfg.maxSpeechS * 32000 =
      ((cfg.maxSpeechS.num * 32000 : ℤ) : ℚ) / ((cfg.maxSpeechS.den : ℤ) : ℚ) := by
    conv_lhs => rw [← Rat.num_div_den cfg.maxSpeechS]
    push_cast
    ring
  rw [heq, le_div_iff₀ hdq]
  exact_mod_cast hmul

/-- C3: every segment the VAD delivers to `on_speech_end` lasts at least
`min_speech_ms` and at most `max_speech_s` plus one 30 ms frame; a
completed region under the floor is discarded silently; and the reset
`_emit_speech` performs is the same whether it emitted or discarded. -/
theorem vad_segment_bounds (cfg : VadConfig) (hms : 0 ≤ cfg.maxSpeechS) :
    (∀ chunks seg, seg ∈ (runVad cfg chunks).2 → SegmentWithinBounds cfg seg) ∧
    (∀ c, (emitSpeech cfg c).1 = ⟨[], false, 0⟩) ∧
    (∀ c, ¬ cfg.minSpeechMs ≤ ((c.speechBuffer.length * 1000 / 32000 : Nat) : ℤ) →
      (emitSpeech cfg c).2 = none) := by
  refine ⟨?_, emitSpeech_core cfg, emitSpeech_none cfg⟩
  intro chunks seg hm
  have hinit : VadInvC cfg (vadInit, ([] : List (List Nat))).1.core :=
    ⟨fun _ => rfl, fun hcontra => absurd hcontra (by decide)⟩
  obtain ⟨_, hall⟩ := runVadAux_spec cfg chunks (vadInit, []) hinit (by simp)
  obtain ⟨hlen, hmin⟩ := hall seg hm
  constructor
  · have hq : ((seg.length * 1000 / 32000 : ℕ) : ℚ) * 32000 ≤
        ((seg.length * 1000 : ℕ) : ℚ) := by
      exact_mod_cast Nat.div_mul_le_self (seg.length * 1000) 32000
    have h2 : ((cfg.minSpeechMs : ℤ) : ℚ) ≤
        (((seg.length * 1000 / 32000 : ℕ) : ℤ) : ℚ) := Int.cast_le.mpr hmin
    rw [Int.cast_natCast] at h2
    rw [le_div_iff₀ (by norm_num : (0:ℚ) < 32)]
    push_cast at hq ⊢
    linarith
  · have h3 : (seg.length : ℚ) ≤ ((maxSpeechBytes cfg : ℕ) : ℚ) + 960 := by
      have : seg.length ≤ maxSpeechBytes cfg + 960 := hlen
      exact_mod_cast this
    have h4 := maxSpeechBytes_le cfg hms
    rw [div_le_iff₀ (by norm_num : (0:ℚ) < 32)]
    linarith

/-- Witness for C3 with the default configuration. -/
theorem vad_segment_bounds_witness :
    (emitSpeech fixtureConfig.vadCfg ⟨[], false, 0⟩).1 = ⟨[], false, 0⟩ :=
  (vad_segment_bounds fixtureConfig.vadCfg (by decide)).2.1 ⟨[], false, 0⟩

-- Projection lemmas for the coordinator helpers, used by the invariant
-- proof: the chime routines never touch state, accumulated buffer, timer,
-- wake detector or pending flag; a flush always leaves the buffer empty
-- and touches nothing else of the coordinator fields.

theorem playStartSignal_state (cfg : AppConfig) (now : ℚ) (m : Machine) :
    (playStartSignal cfg now m).1.state = m.state := by
  unfold playStartSignal; split <;> rfl

theorem playStartSignal_acc (cfg : AppConfig) (now : ℚ) (m : Machine) :
    (playStartSignal cfg now m).1.accumulated = m.accumulated := by
  unfold playStartSignal; split <;> rfl

theorem playStartSignal_timer (cfg : AppConfig) (now : ℚ) (m : Machine) :
    (playStartSignal cfg now m).1.silenceTimer = m.silenceTimer := by
  unfold playStartSignal; split <;> rfl

theorem playStartSignal_wake (cfg : AppConfig) (now : ℚ) (m : Machine) :
    (playStartSignal cfg now m).1.wakePresent = m.wakePresent := by
  unfold playStartSignal; split <;> rfl

theorem playStartSignal_pending (cfg : AppConfig) (now : ℚ) (m : Machine) :
    (playStartSignal cfg now m).1.pendingTranscription = m.pendingTranscription := by
  unfold playStartSignal; split <;> rfl

theorem playEndSignal_state (cfg : AppConfig) (now : ℚ) (m : Machine) :
    (playEndSignal cfg now m).1.state = m.state := by
  unfold playEndSignal; split <;> rfl

theorem playEndSignal_acc (cfg : AppConfig) (now : ℚ) (m : Machine) :
    (playEndSignal cfg now m).1.accumulated = m.accumulated := by
  unfold playEndSignal; split <;> rfl

theorem playEndSignal_timer (cfg : AppConfig) (now : ℚ) (m : Machine) :
    (playEndSignal cfg now m).1.silenceTimer = m.silenceTimer := by
  unfold playEndSignal; split <;> rfl

theorem playEndSignal_wake (cfg : AppConfig) (now : ℚ) (m : Machine) :
    (playEndSignal cfg now m).1.wakePresent = m.wakePresent := by
  unfold playEndSignal; split <;> rfl

theorem playEndSignal_pending (cfg : AppConfig) (now : ℚ) (m : Machine) :
    (playEndSignal cfg now m).1.pendingTranscription = m.pendingTranscription := by
  unfold playEndSignal; split <;> rfl

theorem flushAccumulated_acc (cfg : AppConfig) (m : Machine) :
    (flushAccumulated cfg m).1.accumulated = [] := by
  unfold flushAccumulated
  split
  · next h => simpa [List.isEmpty_iff] using h
  · rfl

theorem flushAccumulated_state (cfg : AppConfig) (m : Machine) :
    (flushAccumulated cfg m).1.state = m.state := by
  unfold flushAccumulated; split <;> rfl

theorem flushAccumulated_timer (cfg : AppConfig) (m : Machine) :
    (flushAccumulated cfg m).1.silenceTimer = m.silenceTimer := by
  unfold flushAccumulated; split <;> rfl

theorem flushAccumulated_wake (cfg : AppConfig) (m : Machine) :
    (flushAccumulated cfg m).1.wakePresent = m.wakePresent := by
  unfold flushAccumulated; split <;> rfl

theorem flushAccumulated_pending (cfg : AppConfig) (m : Machine) :
    (flushAccumulated cfg m).1.pendingTranscription = m.pendingTranscription := by
  unfold flushAccumulated; split <;> rfl

theorem stopListening_fields (cfg : AppConfig) (m : Machine) :
    (stopListening cfg m).1.state = AppState.idle ∧
    (stopListening cfg m).1.accumulated = [] ∧
    (stopListening cfg m).1.silenceTimer = false ∧
    (stopListening cfg m).1.pendingTranscription = m.pendingTranscription := by
  refine ⟨rfl, flushAccumulated_acc cfg _, ?_, ?_⟩
  · exact flushAccumulated_timer cfg { m with silenceTimer := false }
  · exact flushAccumulated_pending cfg { m with silenceTimer := false }

theorem stopHotkeyStream_fields (cfg : AppConfig) (now : ℚ) (m : Machine) :
    (stopHotkeyStream cfg now m).1.state = AppState.idle ∧
    (stopHotkeyStream cfg now m).1.accumulated = [] ∧
    (stopHotkeyStream cfg now m).1.silenceTimer = false ∧
    (stopHotkeyStream cfg now m).1.pendingTranscription = m.pendingTranscription := by
  unfold stopHotkeyStream
  refine ⟨?_, ?_, ?_, ?_⟩
  · rw [playEndSignal_state]
  · rw [playEndSignal_acc]
    exact flushAccumulated_acc cfg _
  · rw [playEndSignal_timer]
    exact flushAccumulated_timer cfg { m with silenceTimer := false }
  · rw [playEndSignal_pending]
    exact flushAccumulated_pending cfg { m with silenceTimer := false }

/-- `toggle()` preserves the coordinator invariant. -/
theorem inv_toggle (cfg : AppConfig) (now : ℚ) (s w : Bool) (m : Machine)
    (h : MachineInv cfg m) : MachineInv cfg (toggleStep cfg now s w m).1 := by
  obtain ⟨h1, h2, h3, h4⟩ := h
  have hsl := stopListening_fields cfg m
  have hsh := stopHotkeyStream_fields cfg now m
  cases him : cfg.inputMode <;> cases hom : cfg.outputMode <;> cases hst : m.state <;>
    cases s <;> cases w <;>
    simp_all [toggleStep, MachineInv, NonStreaming, startListening, stopRecording,
      startRecording, startHotkeyStream, playStartSignal_state, playStartSignal_acc,
      playStartSignal_timer, playStartSignal_wake, playStartSignal_pending]

/-- A streaming worker result preserves the coordinator invariant. -/
theorem inv_segmentResult (cfg : AppConfig) (det : Detector) (now : ℚ)
    (text : String) (m : Machine) (h : MachineInv cfg m) :
    MachineInv cfg (processSegmentText cfg det now text m).1 := by
  obtain ⟨h1, h2, h3, h4⟩ := h
  by_cases htext : text = ""
  · simpa [processSegmentText, htext] using ⟨h1, h2, h3, h4⟩
  · by_cases hwk : (m.wakePresent && det.contains text) = true
    · cases hst : m.state <;> by_cases hrem : det.strip text = "" <;>
        cases hom : cfg.outputMode <;>
        simp_all [processSegmentText, MachineInv, NonStreaming,
          playStartSignal_state, playStartSignal_acc, playStartSignal_timer,
          playStartSignal_wake, playStartSignal_pending, flushAccumulated_acc,
          flushAccumulated_state, flushAccumulated_timer, flushAccumulated_wake,
          flushAccumulated_pending]
    · rw [Bool.not_eq_true] at hwk
      cases hst : m.state <;> cases him : cfg.inputMode <;>
        cases hom : cfg.outputMode <;> cases hwp : m.wakePresent <;>
        simp_all [processSegmentText, MachineInv, NonStreaming]

/-- A silence-timer fire preserves the coordinator invariant. -/
theorem inv_silenceFire (cfg : AppConfig) (now : ℚ) (b : Bool) (m : Machine)
    (h : MachineInv cfg m) : MachineInv cfg (silenceFireStep cfg now b m).1 := by
  obtain ⟨h1, h2, h3, h4⟩ := h
  cases hst : m.state <;> cases b <;>
    simp_all [silenceFireStep, MachineInv, NonStreaming,
      playEndSignal_state, playEndSignal_acc, playEndSignal_timer,
      playEndSignal_wake, playEndSignal_pending, flushAccumulated_acc,
      flushAccumulated_state, flushAccumulated_timer, flushAccumulated_wake,
      flushAccumulated_pending]

/-- Completion of the hotkey-batch transcription thread preserves the
coordinator invariant. -/
theorem inv_transcribeDone (cfg : AppConfig) (now : ℚ) (t : Option String)
    (m : Machine) (h : MachineInv cfg m) :
    MachineInv cfg (transcribeDoneStep cfg now t m).1 := by
  obtain ⟨h1, h2, h3, h4⟩ := h
  by_cases hp : m.pendingTranscription = true
  · simp_all [transcribeDoneStep, MachineInv, NonStreaming,
      playEndSignal_state, playEndSignal_acc, playEndSignal_timer,
      playEndSignal_wake, playEndSignal_pending]
  · simpa [transcribeDoneStep, hp] using ⟨h1, h2, h3, h4⟩

/-- `_force_idle` preserves the coordinator invariant. -/
theorem inv_forceIdle (cfg : AppConfig) (now : ℚ) (m : Machine)
    (h : MachineInv cfg m) : MachineInv cfg (forceIdleStep cfg now m).1 := by
  obtain ⟨h1, h2, h3, h4⟩ := h
  have hsl := stopListening_fields cfg m
  have hsh := stopHotkeyStream_fields cfg now m
  cases hst : m.state <;> cases him : cfg.inputMode <;>
    simp_all [forceIdleStep, MachineInv, NonStreaming]

/-- Every coordinator event preserves the invariant. -/
theorem inv_step (cfg : AppConfig) (det : Detector) (m : Machine) (e : Ev)
    (h : MachineInv cfg m) : MachineInv cfg (step cfg det m e).1 := by
  cases e with
  | toggle s w now => exact inv_toggle cfg now s w m h
  | segmentResult t now => exact inv_segmentResult cfg det now t m h
  | silenceFire b now => exact inv_silenceFire cfg now b m h
  | transcribeDone t now => exact inv_transcribeDone cfg now t m h
  | forceIdle now => exact inv_forceIdle cfg now m h

/-- The invariant holds in every reachable configuration. -/
theorem inv_run (cfg : AppConfig) (det : Detector) (evs : List Ev) :
    MachineInv cfg (runMachine cfg det evs) := by
  have hinit : MachineInv cfg machineInit := by
    refine ⟨fun _ => ⟨rfl, rfl⟩, ?_, fun _ => Or.inl rfl, ?_⟩
    · intro hp
      exact absurd hp (by decide)
    · intro hp
      rcases hp with hp | hp <;> exact absurd hp (by decide)
  have haux : ∀ (es : List Ev) (m : Machine), MachineInv cfg m →
      MachineInv cfg (es.foldl (fun m e => (step cfg det m e).1) m) := by
    intro es
    induction es with
    | nil => intro m h; exact h
    | cons e es ih =>
        intro m h
        rw [List.foldl_cons]
        exact ih _ (inv_step cfg det m e h)
  exact haux evs machineInit hinit

/-- C9: in every configuration the coordinator can reach — any event
sequence from startup — state IDLE implies the accumulated-texts buffer is
empty and the silence timer is null (every transition into IDLE flushes or
clears the buffer and cancels the timer first, as the preservation lemmas
for the individual events show). -/
theorem idle_implies_clear (cfg : AppConfig) (det : Detector) (evs : List Ev)
    (h : (runMachine cfg det evs).state = AppState.idle) :
    (runMachine cfg det evs).accumulated = [] ∧
    (runMachine cfg det evs).silenceTimer = false :=
  (inv_run cfg det evs).1 (Or.inl h)

/-- Witness for C9: a listen-mode session that accumulates a segment in
DICTATING and is then toggled off ends IDLE with buffer and timer clear. -/
theorem idle_implies_clear_witness :
    (runMachine fixtureConfig fixtureDetector
        [Ev.toggle true true 0, Ev.segmentResult "дуняша" 0,
         Ev.segmentResult "привет мир" 1, Ev.toggle true true 2]).accumulated = [] ∧
    (runMachine fixtureConfig fixtureDetector
        [Ev.toggle true true 0, Ev.segmentResult "дуняша" 0,
         Ev.segmentResult "привет мир" 1, Ev.toggle true true 2]).silenceTimer = false :=
  idle_implies_clear fixtureConfig fixtureDetector
    [Ev.toggle true true 0, Ev.segmentResult "дуняша" 0,
     Ev.segmentResult "привет мир" 1, Ev.toggle true true 2] (by decide)

end WhisperLinux
